import Mathlib

/-!
Verification development for the VoiceToReport backend.

The embedded code is `backend/services/voice_agent.py` (the
`VoiceAgentService` voice-command resolver) and
`backend/services/summarization.py` (the `SummarizationService` summary
extractor; `backend/services.py` contains a textually identical copy of
`_parse_summary_response` inside `SummaryGenerationService`, so one
embedding covers both).

Modelling conventions:
- Python `dict`/JSON values are modelled by the inductive type `JVal`;
  a JSON object is a key-value list (`JObj`) with first-match lookup,
  in-place replacement on key assignment for existing keys, and append
  for new keys, matching Python dict semantics (unique keys preserved
  by construction in all inputs we build).
- `json.loads` and `json.dumps` are Python standard-library collaborators,
  not repository code; they are passed in as an explicit parameter
  `jloads : String → Option JVal` (`none` models `json.JSONDecodeError`).
  Theorems that need the stdlib round-trip contract take it as a
  hypothesis; concrete witnesses instantiate `jloads` with finite tables
  that agree with Python `json.loads` on every string they are applied to.
- The OpenAI chat-completion call is modelled by an oracle
  `infer : String → Except String String` mapping the built prompt to the
  provider reply (`.error` models a raised exception in the API call).
- `datetime.now()` is modelled by an explicit `now : String` parameter.
- Raised Python exceptions are modelled by `Except String`; the message
  string carries the exception text.  `process_voice_command` catches
  every exception (`except Exception`), so it returns a plain `JObj`.
- Python `str()` of numbers, lists and dicts is approximated in `pyStr`
  (no theorem below ever evaluates `pyStr` on those cases; string,
  `None` and bool rendering is exact).
-/

/-- JSON values / Python objects as they flow through the services. -/
inductive JVal where
  | null : JVal
  | str : String → JVal
  | num : ℚ → JVal
  | bool : Bool → JVal
  | arr : List JVal → JVal
  | obj : List (String × JVal) → JVal

/-- A decoded JSON object / Python dict body. -/
abbrev JObj := List (String × JVal)

/-- Python `d.get(k)` / `k in d` lookup: first binding of the key. -/
def jget (o : JObj) (k : String) : Option JVal :=
  (o.find? (fun p => p.1 = k)).map (fun p => p.2)

/-- Python `k in d`. -/
def jhas (o : JObj) (k : String) : Bool :=
  o.any (fun p => p.1 = k)

/-- Python `d[k] = v`: replace in place if the key exists, else append. -/
def jset (o : JObj) (k : String) (v : JVal) : JObj :=
  if jhas o k then o.map (fun p => if p.1 = k then (k, v) else p)
  else o ++ [(k, v)]

/-- Python truthiness of a value (`bool(v)`). -/
def jtruthy : JVal → Bool
  | .null => false
  | .str s => s != ""
  | .num q => !(decide (q = 0))
  | .bool b => b
  | .arr xs => !xs.isEmpty
  | .obj kvs => !kvs.isEmpty

/-- Truthiness of a `d.get(k)` result (`None` when the key is absent). -/
def jtruthyOpt : Option JVal → Bool
  | none => false
  | some v => jtruthy v

/-- Python `v == s` for a string literal `s` (false on non-strings). -/
def isStr (v : JVal) (s : String) : Bool :=
  match v with
  | .str t => t = s
  | _ => false

/-- Python `d.get(k) == s` (absent key gives `None`, which is `≠ s`). -/
def optEqStr (o : Option JVal) (s : String) : Bool :=
  match o with
  | some (.str t) => t = s
  | _ => false

/-- The left-brace character, kept out of source literals. -/
def lbrace : Char := Char.ofNat 123

/-- The right-brace character, kept out of source literals. -/
def rbrace : Char := Char.ofNat 125

/-- Index of the first occurrence of a character (Python `s.find(c)`,
with `none` for `-1`). -/
def charIdx? (c : Char) : List Char → Option Nat
  | [] => none
  | x :: xs => if x = c then some 0 else (charIdx? c xs).map (fun i => i + 1)

/-- Index of the last occurrence of a character (Python `s.rfind(c)`). -/
def charLastIdx? (c : Char) (l : List Char) : Option Nat :=
  (charIdx? c l.reverse).map (fun i => l.length - 1 - i)

/-- Left-to-right non-overlapping split on a separator, the scan behind
Python `str.split`, `str.replace` and the `in` substring test.  The
`fuel` argument only forces structural termination; it is always called
with more fuel than characters, so it never runs out. -/
def pySplitList (sep : List Char) : Nat → List Char → List Char → List (List Char)
  | 0, l, acc => [acc.reverse ++ l]
  | _ + 1, [], acc => [acc.reverse]
  | fuel + 1, c :: rest, acc =>
    if sep.isPrefixOf (c :: rest) then
      acc.reverse :: pySplitList sep fuel ((c :: rest).drop sep.length) []
    else pySplitList sep fuel rest (c :: acc)

/-- Python `s.split(sep)` for a non-empty separator. -/
def pySplitOn (s sep : String) : List String :=
  (pySplitList sep.toList (s.toList.length + 1) s.toList []).map String.mk

/-- Python `sub in s` substring test. -/
def pyIn (sub s : String) : Bool :=
  (pySplitOn s sub).length > 1

/-- Python `s.replace(pat, rep)` (all non-overlapping occurrences). -/
def pyReplace (s pat rep : String) : String :=
  String.intercalate rep (pySplitOn s pat)

/-- Python `s.startswith(pre)`. -/
def pyStartsWith (s pre : String) : Bool :=
  pre.toList.isPrefixOf s.toList

/-- Python `s.strip()` (leading and trailing whitespace removed). -/
def pyStrip (s : String) : String :=
  String.mk (((s.toList.dropWhile Char.isWhitespace).reverse.dropWhile
    Char.isWhitespace).reverse)

/-- Python `s.lower()` (ASCII case folding, which is all the call sites
compare against). -/
def pyLower (s : String) : String :=
  String.mk (s.toList.map Char.toLower)

/-- Approximate rendering of a rational the way Python `str()` renders the
corresponding JSON number (exact for integers; never evaluated by any
theorem below on non-integers). -/
def pyNumStr (q : ℚ) : String :=
  if q.den = 1 then toString q.num else toString q

mutual
/-- Python `str(v)` / f-string interpolation of a decoded JSON value.
Exact for `None`, strings and booleans; approximate for numbers, lists
and dicts (no theorem below evaluates those cases). -/
def pyStr : JVal → String
  | .null => "None"
  | .str s => s
  | .num q => pyNumStr q
  | .bool b => if b then "True" else "False"
  | .arr xs => "[" ++ pyStrList xs ++ "]"
  | .obj kvs => String.singleton lbrace ++ pyStrObj kvs ++ String.singleton rbrace

/-- Comma-joined rendering of list elements. -/
def pyStrList : List JVal → String
  | [] => ""
  | [x] => pyStr x
  | x :: xs => pyStr x ++ ", " ++ pyStrList xs

/-- Comma-joined rendering of dict entries. -/
def pyStrObj : List (String × JVal) → String
  | [] => ""
  | [(k, v)] => k ++ ": " ++ pyStr v
  | (k, v) :: kvs => k ++ ": " ++ pyStr v ++ ", " ++ pyStrObj kvs
end

/-- One visible field of the screen context, as consumed by
`_build_command_prompt` and `_enhance_response` (keys `name`, `label`,
`currentValue`, `isEditable`, `synonyms`). -/
structure ScreenField where
  name : String
  label : String
  currentValue : String
  isEditable : Bool
  synonyms : List String
  deriving DecidableEq, Repr

/-- The `screen_context` dictionary.  `.get` with a default collapses an
absent key and the default, so list-valued entries default to `[]`;
`mode` and `screenName` are read with `.get(key)` whose default is
`None`, modelled by `Option`. -/
structure ScreenContext where
  screenName : Option String
  mode : Option String
  visibleFields : List ScreenField
  currentValues : List (String × JVal)
  availableActions : List String

/-- `VoiceAgentService._format_fields` (voice_agent.py lines 114-128). -/
def format_fields (fields : List ScreenField) : String :=
  if fields.isEmpty then "No editable fields available"
  else
    let formatted := fields.map (fun field =>
      let synonyms := String.intercalate ", " field.synonyms
      "- " ++ field.label ++ " (\x27" ++ field.name ++ "\x27): " ++
      "Current=\x27" ++ field.currentValue ++ "\x27, " ++
      "Editable=" ++ (if field.isEditable then "True" else "False") ++ ", " ++
      "Synonyms=[" ++ synonyms ++ "]")
    String.intercalate "\n" formatted

/-- `VoiceAgentService._format_current_values` (voice_agent.py lines
130-144): string values longer than 100 characters are truncated. -/
def format_current_values (values : List (String × JVal)) : String :=
  if values.isEmpty then "No current values"
  else
    let formatted := values.map (fun kv =>
      let display := match kv.2 with
        | .str v => if v.length > 100 then v.take 100 ++ "..." else v
        | v => pyStr v
      "- " ++ kv.1 ++ ": \x27" ++ display ++ "\x27")
    String.intercalate "\n" formatted

/-- `VoiceAgentService._build_command_prompt` (voice_agent.py lines
53-112): the deterministic prompt string sent to the provider. -/
def build_command_prompt (transcription : String) (sc : ScreenContext) : String :=
  let fields_info := format_fields sc.visibleFields
  let current_values := format_current_values sc.currentValues
  let actions := String.intercalate ", " sc.availableActions
  "You are an AI assistant helping a user interact with their mobile voice report app via voice commands.\n\n"
  ++ "CURRENT SCREEN: " ++ sc.screenName.getD "unknown" ++ "\n"
  ++ "CURRENT MODE: " ++ sc.mode.getD "N/A" ++ "\n\n"
  ++ "AVAILABLE FIELDS:\n" ++ fields_info ++ "\n\n"
  ++ "CURRENT VALUES:\n" ++ current_values ++ "\n\n"
  ++ "AVAILABLE ACTIONS:\n" ++ actions ++ "\n\n"
  ++ "USER COMMAND: \"" ++ transcription ++ "\"\n\n"
  ++ "Your task is to interpret the user\x27s voice command and determine the appropriate action. Consider:\n"
  ++ "1. Field name matching (exact, synonyms, and partial matches)\n"
  ++ "2. Context awareness (what screen they\x27re on, what mode they\x27re in)\n"
  ++ "3. Natural language variations\n"
  ++ "4. Common abbreviations and colloquialisms\n\n"
  ++ "Respond with a JSON object containing:\n"
  ++ "\x7b\n"
  ++ "  \"action\": \"update_field|toggle_mode|navigate|execute_action|clarify\",\n"
  ++ "  \"target\": \"field_name_or_action_name\",\n"
  ++ "  \"value\": \"new_value_if_updating_field\",\n"
  ++ "  \"confidence\": 0.95,\n"
  ++ "  \"clarification\": \"Question to ask if confidence < 0.7\",\n"
  ++ "  \"confirmation\": \"Brief confirmation of what was done\",\n"
  ++ "  \"ttsText\": \"Natural spoken response\"\n"
  ++ "\x7d\n\n"
  ++ "Rules:\n"
  ++ "- If confidence < 0.7, use \"clarify\" action and ask for clarification\n"
  ++ "- For field updates, use exact field names from the available fields\n"
  ++ "- For mode changes, use \"toggle_mode\" action\n"
  ++ "- For navigation/actions, use \"execute_action\" with the action name\n"
  ++ "- Keep TTS responses conversational but concise\n"
  ++ "- Handle common phrases like \"change that\", \"update the place\", etc.\n\n"
  ++ "Examples of good responses:\n"
  ++ "- \"Updated! Location is now Downtown Office\"\n"
  ++ "- \"I heard \x27place\x27 - did you mean the location field?\"\n"
  ++ "- \"Switched to edit mode so you can make changes\"\n"

/-- JSON slice extraction from `_parse_gpt_response` (voice_agent.py lines
171-178): slice from the first left brace to the last right brace;
`none` models the `No JSON found in response` failure. -/
def extract_json (response : String) : Option String :=
  let cs := response.toList
  match charIdx? lbrace cs, charLastIdx? rbrace cs with
  | some start_idx, some last =>
      some (String.mk ((cs.drop start_idx).take (last + 1 - start_idx)))
  | _, _ => none

/-- `required_fields` of `_parse_gpt_response` (voice_agent.py line 182). -/
def required_fields : List String := ["action", "confidence", "confirmation", "ttsText"]

/-- `valid_actions` of `_parse_gpt_response` (voice_agent.py line 188). -/
def valid_actions : List String :=
  ["update_field", "toggle_mode", "navigate", "execute_action", "clarify"]

/-- The key/action validation of `_parse_gpt_response` (voice_agent.py
lines 181-192) applied to a decoded object: every required key must be
present and the `action` value must be one of `valid_actions`; the
object is otherwise returned unchanged (no value coercion of any kind). -/
def validate_parsed (parsed : JObj) : Except String JObj :=
  match required_fields.find? (fun f => !(jhas parsed f)) with
  | some f => Except.error ("Missing required field: " ++ f)
  | none =>
    match jget parsed "action" with
    | some (JVal.str a) =>
        if valid_actions.contains a then Except.ok parsed
        else Except.error ("Invalid action: " ++ a)
    | some v => Except.error ("Invalid action: " ++ pyStr v)
    | none => Except.error "Missing required field: action"

/-- `VoiceAgentService._parse_gpt_response` (voice_agent.py lines
168-197).  Every `ValueError`/`JSONDecodeError` branch is re-raised as
the single message `Invalid response format from AI`; a decoded
non-object value makes the membership test raise a `TypeError`, which
that handler does not catch, so it propagates with its own message. -/
def parse_gpt_response (jloads : String → Option JVal) (response : String) :
    Except String JObj :=
  match extract_json response with
  | none => Except.error "Invalid response format from AI"
  | some json_str =>
    match jloads json_str with
    | none => Except.error "Invalid response format from AI"
    | some (JVal.obj parsed) =>
      match validate_parsed parsed with
      | Except.ok p => Except.ok p
      | Except.error _ => Except.error "Invalid response format from AI"
    | some _ => Except.error "TypeError: argument of type is not iterable"

/-- First block of `_enhance_response` (voice_agent.py lines 202-207):
substitute the current timestamp for an `update_field` on `datetime`
with no (truthy) value.  Reading `response['action']` raises `KeyError`
when the key is absent. -/
def enhance_datetime (now : String) (response : JObj) : Except String JObj :=
  match jget response "action" with
  | none => Except.error "KeyError: \x27action\x27"
  | some a =>
    if isStr a "update_field" && optEqStr (jget response "target") "datetime" &&
        !(jtruthyOpt (jget response "value")) then
      let r := jset response "value" (JVal.str now)
      Except.ok (jset r "ttsText" (JVal.str ("Added current date and time: " ++ now)))
    else
      Except.ok response

/-- Second block of `_enhance_response` (voice_agent.py lines 209-215):
in `preview` mode an `update_field` is overridden to `clarify`. -/
def enhance_preview_override (response : JObj) (sc : ScreenContext) :
    Except String JObj :=
  match jget response "action" with
  | none => Except.error "KeyError: \x27action\x27"
  | some a =>
    if isStr a "update_field" && sc.mode == some "preview" then
      let r := jset response "action" (JVal.str "clarify")
      let r := jset r "clarification"
        (JVal.str "You\x27re in preview mode. Should I switch to edit mode first?")
      Except.ok (jset r "ttsText"
        (JVal.str "You\x27re in preview mode. Should I switch to edit mode so you can make changes?"))
    else
      Except.ok response

/-- Third block of `_enhance_response` (voice_agent.py lines 217-225):
rewrite confirmation/ttsText with the field label of an exactly matching
visible field, falling back to the raw target value. -/
def enhance_confirmation (response : JObj) (sc : ScreenContext) :
    Except String JObj :=
  match jget response "action" with
  | none => Except.error "KeyError: \x27action\x27"
  | some a =>
    if isStr a "update_field" then
      let field_name := (jget response "target").getD JVal.null
      let field_label :=
        match sc.visibleFields.find? (fun f => isStr field_name f.name) with
        | some f => JVal.str f.label
        | none => field_name
      if jtruthyOpt (jget response "value") then
        let v := (jget response "value").getD JVal.null
        let r := jset response "confirmation"
          (JVal.str ("Updated " ++ pyStr field_label ++ " to: " ++ pyStr v))
        Except.ok (jset r "ttsText"
          (JVal.str ("Updated! " ++ pyStr field_label ++ " is now " ++ pyStr v)))
      else
        Except.ok response
    else
      Except.ok response

/-- Fourth block of `_enhance_response` (voice_agent.py lines 227-238):
map loosely-named `execute_action` targets; `.lower()` on a non-string
target raises `AttributeError` (uncaught, so it escapes to the
resolver-level handler). -/
def enhance_action_mapping (response : JObj) : Except String JObj :=
  match jget response "action" with
  | none => Except.error "KeyError: \x27action\x27"
  | some a =>
    if isStr a "execute_action" then
      match (match jget response "target" with
             | none => Except.ok ""
             | some (JVal.str s) => Except.ok (pyLower s)
             | some _ =>
               Except.error "AttributeError: object has no attribute \x27lower\x27") with
      | Except.error e => Except.error e
      | Except.ok target =>
        if pyIn "pdf" target || pyIn "generate" target then
          let r := jset response "target" (JVal.str "generate_pdf")
          Except.ok (jset r "ttsText" (JVal.str "Generating your PDF report now"))
        else if pyIn "edit" target && pyIn "mode" target then
          let r := jset response "action" (JVal.str "toggle_mode")
          Except.ok (jset r "ttsText" (JVal.str "Switched to edit mode"))
        else if pyIn "preview" target && pyIn "mode" target then
          let r := jset response "action" (JVal.str "toggle_mode")
          Except.ok (jset r "ttsText" (JVal.str "Switched to preview mode"))
        else
          Except.ok response
    else
      Except.ok response

/-- `VoiceAgentService._enhance_response` (voice_agent.py lines 199-240):
the four in-place mutation blocks run in source order; a raised
exception in any block aborts the rest. -/
def enhance_response (now : String) (response : JObj) (sc : ScreenContext) :
    Except String JObj :=
  match enhance_datetime now response with
  | Except.error e => Except.error e
  | Except.ok r1 =>
    match enhance_preview_override r1 sc with
    | Except.error e => Except.error e
    | Except.ok r2 =>
      match enhance_confirmation r2 sc with
      | Except.error e => Except.error e
      | Except.ok r3 => enhance_action_mapping r3

/-- `VoiceAgentService._create_error_response` (voice_agent.py lines
242-250). -/
def create_error_response (error_message : String) : JObj :=
  [("action", JVal.str "clarify"),
   ("confidence", JVal.num 0),
   ("clarification", JVal.str "I couldn\x27t understand that command. Could you try again?"),
   ("confirmation", JVal.str ("Error: " ++ error_message)),
   ("ttsText", JVal.str "I didn\x27t catch that. Could you please try again?")]

/-- The body of the `try` block of `process_voice_command` (voice_agent.py
lines 33-47): build the prompt, consult the provider (whose reply is
stripped by `_get_gpt_response`), parse, enhance. -/
def voice_pipeline (jloads : String → Option JVal) (infer : String → Except String String)
    (now : String) (transcription : String) (sc : ScreenContext) : Except String JObj :=
  match infer (build_command_prompt transcription sc) with
  | Except.error e => Except.error e
  | Except.ok raw =>
    match parse_gpt_response jloads (pyStrip raw) with
    | Except.error e => Except.error e
    | Except.ok parsed => enhance_response now parsed sc

/-- `VoiceAgentService.process_voice_command` (voice_agent.py lines
18-51).  A `None` screen context makes `_build_command_prompt` raise
`AttributeError` on its first `.get`, before the provider is consulted;
`except Exception` converts every raised exception into
`_create_error_response`. -/
def process_voice_command (jloads : String → Option JVal)
    (infer : String → Except String String) (now : String)
    (transcription : String) (screen_context : Option ScreenContext) : JObj :=
  match screen_context with
  | none => create_error_response "\x27NoneType\x27 object has no attribute \x27get\x27"
  | some sc =>
    match voice_pipeline jloads infer now transcription sc with
    | Except.ok enhanced => enhanced
    | Except.error e => create_error_response e

/-- `settings.gpt_model` default from `backend/config.py`. -/
def gpt_model : String := "gpt-4-turbo-preview"

/-- `SummarizationService._get_system_prompt` (summarization.py lines
72-84). -/
def get_system_prompt : String :=
  "You are an AI assistant that analyzes work activity transcriptions and extracts structured information. \n\n"
  ++ "Your task is to analyze the given transcription and extract the following information in JSON format:\n"
  ++ "- taskDescription: A clear, concise description of the main task or activity described\n"
  ++ "- location: Where this activity took place (if mentioned, otherwise null)\n"
  ++ "- datetime: When this occurred (if mentioned, otherwise null)\n"
  ++ "- outcome: The result, completion status, or achievement described\n"
  ++ "- notes: Any additional relevant details, insights, or next steps mentioned\n\n"
  ++ "Be precise and only include information that is actually mentioned in the transcription. If something isn\x27t mentioned, use null for that field.\n"
  ++ "Always respond with valid JSON only, no additional text or formatting."

/-- `SummarizationService._get_user_prompt` (summarization.py lines
86-92). -/
def get_user_prompt (transcription : String) : String :=
  "Please analyze this work activity transcription and provide a structured summary:\n\n"
  ++ "Transcription: \"" ++ transcription ++ "\"\n\n"
  ++ "Return your response as a valid JSON object with the fields: taskDescription, location, datetime, outcome, and notes."

/-- The five schema keys checked by `_parse_summary_response`
(summarization.py line 106). -/
def summary_required_fields : List String :=
  ["taskDescription", "location", "datetime", "outcome", "notes"]

/-- The markdown-fence stripping at the top of `_parse_summary_response`
(summarization.py lines 97-101). -/
def strip_code_fences (s : String) : String :=
  if pyStartsWith s "```json" then pyStrip (pyReplace (pyReplace s "```json" "") "```" "")
  else if pyStartsWith s "```" then pyStrip (pyReplace s "```" "")
  else s

/-- The key-backfill loop of `_parse_summary_response` (summarization.py
lines 106-109): each missing schema key is appended with value `None`. -/
def ensure_summary_fields (kvs : JObj) : JObj :=
  summary_required_fields.foldl
    (fun acc f => if jhas acc f then acc else acc ++ [(f, JVal.null)]) kvs

/-- `SummarizationService._parse_summary_response` (summarization.py lines
94-121), identical to `SummaryGenerationService._parse_summary_response`
(services.py lines 172-199).  `json.JSONDecodeError` is converted to the
`ValueError` message `Failed to parse AI response`; a decoded non-object
makes the subsequent dict operations raise an uncaught `TypeError` /
`AttributeError`, modelled by the final error branch. -/
def parse_summary_response (jloads : String → Option JVal) (summary_text : String) :
    Except String JObj :=
  let t := strip_code_fences summary_text
  match jloads t with
  | none => Except.error "Failed to parse AI response"
  | some (JVal.obj summary_data) =>
    let withKeys := ensure_summary_fields summary_data
    if jtruthyOpt (jget withKeys "taskDescription") then Except.ok withKeys
    else Except.ok (jset withKeys "taskDescription" (JVal.str "Work activity completed"))
  | some _ => Except.error "TypeError: argument of type is not iterable"

/-- `SummarizationService._create_fallback_summary` (summarization.py
lines 123-140). -/
def create_fallback_summary (nowIso : String) (transcription : String) : JObj :=
  [("summary", JVal.obj
      [("taskDescription", JVal.str
          (if transcription.length > 200 then transcription.take 200 ++ "..."
           else transcription)),
       ("location", JVal.null),
       ("datetime", JVal.null),
       ("outcome", JVal.str "Summary generation failed - manual review needed"),
       ("notes", JVal.str "AI was unable to parse this transcription into structured format")]),
   ("timestamp", JVal.str nowIso),
   ("model_used", JVal.str gpt_model),
   ("warning", JVal.str "Fallback summary used due to parsing error")]

/-- The body of the `try` block of `generate_summary` (summarization.py
lines 40-65): the provider is consulted with the system and user prompts,
its reply is stripped, parsed and wrapped.  The oracle takes both prompt
strings; `.error` models a raised exception in the API call. -/
def summary_attempt (jloads : String → Option JVal)
    (infer : String → String → Except String String) (nowIso : String)
    (transcription : String) : Except String JObj :=
  match infer get_system_prompt (get_user_prompt transcription) with
  | Except.error e => Except.error e
  | Except.ok raw =>
    match parse_summary_response jloads (pyStrip raw) with
    | Except.error e => Except.error e
    | Except.ok summary_data =>
      Except.ok [("summary", JVal.obj summary_data),
                 ("timestamp", JVal.str nowIso),
                 ("model_used", JVal.str gpt_model)]

/-- `SummarizationService.generate_summary` (summarization.py lines
17-70).  The too-short guard raises `ValueError` before the `try` block
(so it propagates); inside the `try` block, `except Exception` converts
every failure into the fallback summary. -/
def generate_summary (jloads : String → Option JVal)
    (infer : String → String → Except String String) (nowIso : String)
    (transcription : String) : Except String JObj :=
  if transcription = "" || (pyStrip transcription).length < 10 then
    Except.error "Transcription text too short to summarize"
  else
    match summary_attempt jloads infer nowIso transcription with
    | Except.ok result => Except.ok result
    | Except.error _ => Except.ok (create_fallback_summary nowIso transcription)

/-! ### Dictionary lemmas -/

theorem jget_cons (p : String × JVal) (o : JObj) (k : String) :
    jget (p :: o) k = if p.1 = k then some p.2 else jget o k := by
  simp only [jget, List.find?]
  by_cases h : p.1 = k <;> simp [h]

theorem jhas_cons (p : String × JVal) (o : JObj) (k : String) :
    jhas (p :: o) k = (decide (p.1 = k) || jhas o k) := by
  simp [jhas]

theorem jhas_append (o m : JObj) (k : String) :
    jhas (o ++ m) k = (jhas o k || jhas m k) := by
  simp [jhas, List.any_append]

theorem jget_append_of_jhas (o m : JObj) (k : String) (h : jhas o k = true) :
    jget (o ++ m) k = jget o k := by
  induction o with
  | nil => simp [jhas] at h
  | cons p rest ih =>
    by_cases hp : p.1 = k
    · simp [jget_cons, hp]
    · rw [jhas_cons] at h
      simp only [decide_eq_true_eq, hp, decide_False, Bool.false_or] at h
      simp [jget_cons, hp, ih h]

theorem jget_append_of_not_jhas (o m : JObj) (k : String) (h : jhas o k = false) :
    jget (o ++ m) k = jget m k := by
  induction o with
  | nil => simp
  | cons p rest ih =>
    rw [jhas_cons] at h
    simp only [Bool.or_eq_false_iff, decide_eq_false_iff_not] at h
    simp [jget_cons, h.1, ih h.2]

theorem jget_eq_none_of_not_jhas (o : JObj) (k : String) (h : jhas o k = false) :
    jget o k = none := by
  simpa using jget_append_of_not_jhas o [] k h

theorem jhas_of_jget_eq_some (o : JObj) (k : String) (v : JVal)
    (h : jget o k = some v) : jhas o k = true := by
  cases hh : jhas o k
  · rw [jget_eq_none_of_not_jhas o k hh] at h; cases h
  · rfl

theorem jget_map_replace_ne (o : JObj) (k k' : String) (v : JVal) (h : k' ≠ k) :
    jget (o.map (fun p => if p.1 = k then (k, v) else p)) k' = jget o k' := by
  induction o with
  | nil => simp
  | cons p rest ih =>
    by_cases hp : p.1 = k
    · have hk : k ≠ k' := fun hc => h hc.symm
      have hp' : p.1 ≠ k' := by rw [hp]; exact hk
      simp [jget_cons, hp, hk, hp', ih]
    · simp only [List.map_cons, hp, if_false]
      rw [jget_cons, jget_cons]
      by_cases hk' : p.1 = k'
      · simp [hk']
      · simp [hk', ih]

theorem jget_map_replace_self (o : JObj) (k : String) (v : JVal)
    (h : jhas o k = true) :
    jget (o.map (fun p => if p.1 = k then (k, v) else p)) k = some v := by
  induction o with
  | nil => simp [jhas] at h
  | cons p rest ih =>
    by_cases hp : p.1 = k
    · simp [jget_cons, hp]
    · rw [jhas_cons] at h
      simp only [decide_eq_true_eq, hp, decide_False, Bool.false_or] at h
      simp [jget_cons, hp, ih h]

theorem jhas_map_replace (o : JObj) (k k' : String) (v : JVal) :
    jhas (o.map (fun p => if p.1 = k then (k, v) else p)) k' = jhas o k' := by
  induction o with
  | nil => simp
  | cons p rest ih =>
    by_cases hp : p.1 = k
    · simp [jhas_cons, hp, ih]
    · simp [jhas_cons, hp, ih]

theorem jset_eq_def (o : JObj) (k : String) (v : JVal) :
    jset o k v = if jhas o k = true then
      o.map (fun p => if p.1 = k then (k, v) else p) else o ++ [(k, v)] := rfl

theorem jget_jset_self (o : JObj) (k : String) (v : JVal) :
    jget (jset o k v) k = some v := by
  rw [jset_eq_def]
  cases hh : jhas o k
  · simp only [Bool.false_eq_true, if_false]
    rw [jget_append_of_not_jhas o _ k hh]
    simp [jget_cons]
  · simp only [if_true]
    exact jget_map_replace_self o k v hh

theorem jget_jset_ne (o : JObj) (k k' : String) (v : JVal) (h : k' ≠ k) :
    jget (jset o k v) k' = jget o k' := by
  rw [jset_eq_def]
  cases hh : jhas o k
  · simp only [Bool.false_eq_true, if_false]
    cases hk' : jhas o k'
    · rw [jget_append_of_not_jhas o _ k' hk', jget_eq_none_of_not_jhas o k' hk']
      have hk : k ≠ k' := fun hc => h hc.symm
      simp [jget_cons, hk, jget]
    · exact jget_append_of_jhas o _ k' hk'
  · simp only [if_true]
    exact jget_map_replace_ne o k k' v h

theorem jhas_jset (o : JObj) (k k' : String) (v : JVal) :
    jhas (jset o k v) k' = (jhas o k' || decide (k' = k)) := by
  rw [jset_eq_def]
  cases hh : jhas o k
  · simp only [Bool.false_eq_true, if_false]
    rw [jhas_append]
    simp [jhas_cons, jhas, eq_comm]
  · simp only [if_true]
    rw [jhas_map_replace]
    by_cases hk : k' = k
    · subst hk; simp [hh]
    · simp [hk]

theorem jhas_jset_self (o : JObj) (k : String) (v : JVal) :
    jhas (jset o k v) k = true := by
  simp [jhas_jset]

theorem jhas_jset_of (o : JObj) (k k' : String) (v : JVal)
    (h : jhas o k' = true) : jhas (jset o k v) k' = true := by
  simp [jhas_jset, h]

/-! ### Resolver step lemmas -/

theorem enhance_datetime_ok_action (now : String) (r r' : JObj)
    (h : enhance_datetime now r = Except.ok r') :
    jget r' "action" = jget r "action" := by
  unfold enhance_datetime at h
  cases hja : jget r "action" with
  | none => rw [hja] at h; cases h
  | some a =>
    rw [hja] at h
    dsimp only at h
    by_cases hc : (isStr a "update_field" && optEqStr (jget r "target") "datetime" &&
        !jtruthyOpt (jget r "value")) = true
    · rw [if_pos hc] at h
      cases h
      rw [jget_jset_ne _ _ _ _ (by decide), jget_jset_ne _ _ _ _ (by decide)]
      exact hja
    · rw [if_neg hc] at h
      cases h
      exact hja

theorem enhance_datetime_ok_keys (now : String) (r r' : JObj) (k : String)
    (h : enhance_datetime now r = Except.ok r') (hk : jhas r k = true) :
    jhas r' k = true := by
  unfold enhance_datetime at h
  cases hja : jget r "action" with
  | none => rw [hja] at h; cases h
  | some a =>
    rw [hja] at h
    dsimp only at h
    by_cases hc : (isStr a "update_field" && optEqStr (jget r "target") "datetime" &&
        !jtruthyOpt (jget r "value")) = true
    · rw [if_pos hc] at h
      cases h
      exact jhas_jset_of _ _ _ _ (jhas_jset_of _ _ _ _ hk)
    · rw [if_neg hc] at h
      cases h
      exact hk

theorem enhance_datetime_skip (now : String) (r : JObj) (a : JVal)
    (ha : jget r "action" = some a)
    (hc : (isStr a "update_field" && optEqStr (jget r "target") "datetime" &&
      !jtruthyOpt (jget r "value")) = false) :
    enhance_datetime now r = Except.ok r := by
  unfold enhance_datetime
  rw [ha]
  dsimp only
  rw [if_neg (by simp [hc])]

theorem enhance_datetime_total (now : String) (r : JObj) (a : JVal)
    (ha : jget r "action" = some a) :
    ∃ r1, enhance_datetime now r = Except.ok r1 := by
  unfold enhance_datetime
  rw [ha]
  dsimp only
  by_cases hc : (isStr a "update_field" && optEqStr (jget r "target") "datetime" &&
      !jtruthyOpt (jget r "value")) = true
  · rw [if_pos hc]; exact ⟨_, rfl⟩
  · rw [if_neg hc]; exact ⟨_, rfl⟩

theorem enhance_preview_override_ok_action (r : JObj) (sc : ScreenContext) (r' : JObj)
    (h : enhance_preview_override r sc = Except.ok r') :
    jget r' "action" = jget r "action" ∨ jget r' "action" = some (JVal.str "clarify") := by
  unfold enhance_preview_override at h
  cases hja : jget r "action" with
  | none => rw [hja] at h; cases h
  | some a =>
    rw [hja] at h
    dsimp only at h
    by_cases hc : (isStr a "update_field" && sc.mode == some "preview") = true
    · rw [if_pos hc] at h
      cases h
      right
      rw [jget_jset_ne _ _ _ _ (by decide), jget_jset_ne _ _ _ _ (by decide)]
      exact jget_jset_self _ _ _
    · rw [if_neg hc] at h
      cases h
      left; exact hja

theorem enhance_preview_override_ok_keys (r : JObj) (sc : ScreenContext) (r' : JObj)
    (k : String) (h : enhance_preview_override r sc = Except.ok r')
    (hk : jhas r k = true) : jhas r' k = true := by
  unfold enhance_preview_override at h
  cases hja : jget r "action" with
  | none => rw [hja] at h; cases h
  | some a =>
    rw [hja] at h
    dsimp only at h
    by_cases hc : (isStr a "update_field" && sc.mode == some "preview") = true
    · rw [if_pos hc] at h
      cases h
      exact jhas_jset_of _ _ _ _ (jhas_jset_of _ _ _ _ (jhas_jset_of _ _ _ _ hk))
    · rw [if_neg hc] at h
      cases h
      exact hk

theorem enhance_preview_override_skip (r : JObj) (sc : ScreenContext) (a : JVal)
    (ha : jget r "action" = some a)
    (hc : (isStr a "update_field" && sc.mode == some "preview") = false) :
    enhance_preview_override r sc = Except.ok r := by
  unfold enhance_preview_override
  rw [ha]
  dsimp only
  rw [if_neg (by simp [hc])]

theorem enhance_preview_override_fire (r : JObj) (sc : ScreenContext)
    (ha : jget r "action" = some (JVal.str "update_field"))
    (hm : sc.mode = some "preview") :
    enhance_preview_override r sc = Except.ok
      (jset (jset (jset r "action" (JVal.str "clarify")) "clarification"
        (JVal.str "You\x27re in preview mode. Should I switch to edit mode first?"))
        "ttsText"
        (JVal.str "You\x27re in preview mode. Should I switch to edit mode so you can make changes?")) := by
  unfold enhance_preview_override
  rw [ha]
  dsimp only
  rw [if_pos (by simp [isStr, hm])]

theorem enhance_preview_override_preview_not_update (r : JObj) (sc : ScreenContext)
    (r' : JObj) (h : enhance_preview_override r sc = Except.ok r')
    (hm : sc.mode = some "preview") :
    jget r' "action" ≠ some (JVal.str "update_field") := by
  unfold enhance_preview_override at h
  cases hja : jget r "action" with
  | none => rw [hja] at h; cases h
  | some a =>
    rw [hja] at h
    dsimp only at h
    by_cases hc : (isStr a "update_field" && sc.mode == some "preview") = true
    · rw [if_pos hc] at h
      cases h
      rw [jget_jset_ne _ _ _ _ (by decide), jget_jset_ne _ _ _ _ (by decide),
        jget_jset_self]
      intro hcon
      have h1 : JVal.str "clarify" = JVal.str "update_field" := Option.some.inj hcon
      have h2 : ("clarify" : String) = "update_field" := by injection h1
      exact absurd h2 (by decide)
    · rw [if_neg hc] at h
      cases h
      rw [hja]
      simp only [Bool.not_eq_true, Bool.and_eq_false_iff] at hc
      rcases hc with hc | hc
      · intro hcon
        injection hcon with hcon
        rw [hcon] at hc
        simp [isStr] at hc
      · exfalso
        rw [hm] at hc
        simp at hc

theorem enhance_confirmation_ok_action (r : JObj) (sc : ScreenContext) (r' : JObj)
    (h : enhance_confirmation r sc = Except.ok r') :
    jget r' "action" = jget r "action" := by
  unfold enhance_confirmation at h
  cases hja : jget r "action" with
  | none => rw [hja] at h; cases h
  | some a =>
    rw [hja] at h
    dsimp only at h
    by_cases hc : isStr a "update_field" = true
    · rw [if_pos hc] at h
      by_cases hv : jtruthyOpt (jget r "value") = true
      · rw [if_pos hv] at h
        cases h
        rw [jget_jset_ne _ _ _ _ (by decide), jget_jset_ne _ _ _ _ (by decide)]
        exact hja
      · rw [if_neg hv] at h
        cases h
        exact hja
    · rw [if_neg hc] at h
      cases h
      exact hja

theorem enhance_confirmation_ok_keys (r : JObj) (sc : ScreenContext) (r' : JObj)
    (k : String) (h : enhance_confirmation r sc = Except.ok r')
    (hk : jhas r k = true) : jhas r' k = true := by
  unfold enhance_confirmation at h
  cases hja : jget r "action" with
  | none => rw [hja] at h; cases h
  | some a =>
    rw [hja] at h
    dsimp only at h
    by_cases hc : isStr a "update_field" = true
    · rw [if_pos hc] at h
      by_cases hv : jtruthyOpt (jget r "value") = true
      · rw [if_pos hv] at h
        cases h
        exact jhas_jset_of _ _ _ _ (jhas_jset_of _ _ _ _ hk)
      · rw [if_neg hv] at h
        cases h
        exact hk
    · rw [if_neg hc] at h
      cases h
      exact hk

theorem enhance_confirmation_skip (r : JObj) (sc : ScreenContext) (a : JVal)
    (ha : jget r "action" = some a) (hv : isStr a "update_field" = false) :
    enhance_confirmation r sc = Except.ok r := by
  unfold enhance_confirmation
  rw [ha]
  dsimp only
  rw [if_neg (by simp [hv])]

theorem enhance_action_mapping_ok_action (r r' : JObj)
    (h : enhance_action_mapping r = Except.ok r') :
    jget r' "action" = jget r "action" ∨
      jget r' "action" = some (JVal.str "toggle_mode") := by
  unfold enhance_action_mapping at h
  cases hja : jget r "action" with
  | none => rw [hja] at h; cases h
  | some a =>
    rw [hja] at h
    dsimp only at h
    by_cases hc : isStr a "execute_action" = true
    · rw [if_pos hc] at h
      cases hjt : jget r "target" with
      | none =>
        rw [hjt] at h
        dsimp only at h
        split at h
        · cases h
          left
          rw [jget_jset_ne _ _ _ _ (by decide), jget_jset_ne _ _ _ _ (by decide)]
          exact hja
        · split at h
          · cases h
            right
            rw [jget_jset_ne _ _ _ _ (by decide)]
            exact jget_jset_self _ _ _
          · split at h
            · cases h
              right
              rw [jget_jset_ne _ _ _ _ (by decide)]
              exact jget_jset_self _ _ _
            · cases h
              left; exact hja
      | some tv =>
        rw [hjt] at h
        cases tv with
        | str s =>
          dsimp only at h
          split at h
          · cases h
            left
            rw [jget_jset_ne _ _ _ _ (by decide), jget_jset_ne _ _ _ _ (by decide)]
            exact hja
          · split at h
            · cases h
              right
              rw [jget_jset_ne _ _ _ _ (by decide)]
              exact jget_jset_self _ _ _
            · split at h
              · cases h
                right
                rw [jget_jset_ne _ _ _ _ (by decide)]
                exact jget_jset_self _ _ _
              · cases h
                left; exact hja
        | null => dsimp only at h; cases h
        | num q => dsimp only at h; cases h
        | bool b => dsimp only at h; cases h
        | arr xs => dsimp only at h; cases h
        | obj kvs => dsimp only at h; cases h
    · rw [if_neg hc] at h
      cases h
      left; exact hja

theorem enhance_action_mapping_ok_keys (r r' : JObj) (k : String)
    (h : enhance_action_mapping r = Except.ok r') (hk : jhas r k = true) :
    jhas r' k = true := by
  unfold enhance_action_mapping at h
  cases hja : jget r "action" with
  | none => rw [hja] at h; cases h
  | some a =>
    rw [hja] at h
    dsimp only at h
    by_cases hc : isStr a "execute_action" = true
    · rw [if_pos hc] at h
      cases hjt : jget r "target" with
      | none =>
        rw [hjt] at h
        dsimp only at h
        split at h
        · cases h; exact jhas_jset_of _ _ _ _ (jhas_jset_of _ _ _ _ hk)
        · split at h
          · cases h; exact jhas_jset_of _ _ _ _ (jhas_jset_of _ _ _ _ hk)
          · split at h
            · cases h; exact jhas_jset_of _ _ _ _ (jhas_jset_of _ _ _ _ hk)
            · cases h; exact hk
      | some tv =>
        rw [hjt] at h
        cases tv with
        | str s =>
          dsimp only at h
          split at h
          · cases h; exact jhas_jset_of _ _ _ _ (jhas_jset_of _ _ _ _ hk)
          · split at h
            · cases h; exact jhas_jset_of _ _ _ _ (jhas_jset_of _ _ _ _ hk)
            · split at h
              · cases h; exact jhas_jset_of _ _ _ _ (jhas_jset_of _ _ _ _ hk)
              · cases h; exact hk
        | null => dsimp only at h; cases h
        | num q => dsimp only at h; cases h
        | bool b => dsimp only at h; cases h
        | arr xs => dsimp only at h; cases h
        | obj kvs => dsimp only at h; cases h
    · rw [if_neg hc] at h
      cases h
      exact hk

theorem enhance_action_mapping_skip (r : JObj) (a : JVal)
    (ha : jget r "action" = some a) (hv : isStr a "execute_action" = false) :
    enhance_action_mapping r = Except.ok r := by
  unfold enhance_action_mapping
  rw [ha]
  dsimp only
  rw [if_neg (by simp [hv])]

theorem enhance_response_ok_keys (now : String) (r : JObj) (sc : ScreenContext)
    (r' : JObj) (k : String) (h : enhance_response now r sc = Except.ok r')
    (hk : jhas r k = true) : jhas r' k = true := by
  unfold enhance_response at h
  cases h1 : enhance_datetime now r with
  | error e => rw [h1] at h; cases h
  | ok r1 =>
    rw [h1] at h
    dsimp only at h
    cases h2 : enhance_preview_override r1 sc with
    | error e => rw [h2] at h; cases h
    | ok r2 =>
      rw [h2] at h
      dsimp only at h
      cases h3 : enhance_confirmation r2 sc with
      | error e => rw [h3] at h; cases h
      | ok r3 =>
        rw [h3] at h
        dsimp only at h
        exact enhance_action_mapping_ok_keys r3 r' k h
          (enhance_confirmation_ok_keys r2 sc r3 k h3
            (enhance_preview_override_ok_keys r1 sc r2 k h2
              (enhance_datetime_ok_keys now r r1 k h1 hk)))

theorem enhance_response_ok_action (now : String) (r : JObj) (sc : ScreenContext)
    (r' : JObj) (a : String) (h : enhance_response now r sc = Except.ok r')
    (ha : jget r "action" = some (JVal.str a)) :
    jget r' "action" = some (JVal.str a) ∨
      jget r' "action" = some (JVal.str "clarify") ∨
      jget r' "action" = some (JVal.str "toggle_mode") := by
  unfold enhance_response at h
  cases h1 : enhance_datetime now r with
  | error e => rw [h1] at h; cases h
  | ok r1 =>
    rw [h1] at h
    dsimp only at h
    cases h2 : enhance_preview_override r1 sc with
    | error e => rw [h2] at h; cases h
    | ok r2 =>
      rw [h2] at h
      dsimp only at h
      cases h3 : enhance_confirmation r2 sc with
      | error e => rw [h3] at h; cases h
      | ok r3 =>
        rw [h3] at h
        dsimp only at h
        have e1 : jget r1 "action" = some (JVal.str a) := by
          rw [enhance_datetime_ok_action now r r1 h1]; exact ha
        have e2 := enhance_preview_override_ok_action r1 sc r2 h2
        have e3 := enhance_confirmation_ok_action r2 sc r3 h3
        have e4 := enhance_action_mapping_ok_action r3 r' h
        rcases e4 with e4 | e4
        · rw [e3] at e4
          rcases e2 with e2 | e2
        
          · rw [e2, e1] at e4
            exact Or.inl e4
          · rw [e2] at e4
            exact Or.inr (Or.inl e4)
        · exact Or.inr (Or.inr e4)

theorem enhance_response_preview_not_update (now : String) (r : JObj)
    (sc : ScreenContext) (r' : JObj) (h : enhance_response now r sc = Except.ok r')
    (hm : sc.mode = some "preview") :
    jget r' "action" ≠ some (JVal.str "update_field") := by
  unfold enhance_response at h
  cases h1 : enhance_datetime now r with
  | error e => rw [h1] at h; cases h
  | ok r1 =>
    rw [h1] at h
    dsimp only at h
    cases h2 : enhance_preview_override r1 sc with
    | error e => rw [h2] at h; cases h
    | ok r2 =>
      rw [h2] at h
      dsimp only at h
      cases h3 : enhance_confirmation r2 sc with
      | error e => rw [h3] at h; cases h
      | ok r3 =>
        rw [h3] at h
        dsimp only at h
        have e2 := enhance_preview_override_preview_not_update r1 sc r2 h2 hm
        have e3 := enhance_confirmation_ok_action r2 sc r3 h3
        have e4 := enhance_action_mapping_ok_action r3 r' h
        rcases e4 with e4 | e4
        · rw [e4, e3]; exact e2
        · rw [e4]
          intro hcon
          have hx : JVal.str "toggle_mode" = JVal.str "update_field" :=
            Option.some.inj hcon
          have hy : ("toggle_mode" : String) = "update_field" := by injection hx
          exact absurd hy (by decide)

theorem enhance_response_skip_all (now : String) (r : JObj) (sc : ScreenContext)
    (a : String) (ha : jget r "action" = some (JVal.str a))
    (h1 : a ≠ "update_field") (h2 : a ≠ "execute_action") :
    enhance_response now r sc = Except.ok r := by
  have hs1 : isStr (JVal.str a) "update_field" = false := by simp [isStr, h1]
  have hs2 : isStr (JVal.str a) "execute_action" = false := by simp [isStr, h2]
  unfold enhance_response
  rw [enhance_datetime_skip now r _ ha (by rw [hs1]; rfl)]
  dsimp only
  rw [enhance_preview_override_skip r sc _ ha (by rw [hs1]; rfl)]
  dsimp only
  rw [enhance_confirmation_skip r sc _ ha hs1]
  dsimp only
  exact enhance_action_mapping_skip r _ ha hs2

theorem enhance_response_preview_fire (now : String) (r : JObj) (sc : ScreenContext)
    (ha : jget r "action" = some (JVal.str "update_field"))
    (hm : sc.mode = some "preview") :
    ∃ r', enhance_response now r sc = Except.ok r' ∧
      jget r' "action" = some (JVal.str "clarify") ∧
      jget r' "clarification" =
        some (JVal.str "You\x27re in preview mode. Should I switch to edit mode first?") := by
  obtain ⟨r1, hr1⟩ := enhance_datetime_total now r _ ha
  have ha1 : jget r1 "action" = some (JVal.str "update_field") := by
    rw [enhance_datetime_ok_action now r r1 hr1]; exact ha
  have hr2 := enhance_preview_override_fire r1 sc ha1 hm
  set r2 := jset (jset (jset r1 "action" (JVal.str "clarify")) "clarification"
    (JVal.str "You\x27re in preview mode. Should I switch to edit mode first?"))
    "ttsText"
    (JVal.str "You\x27re in preview mode. Should I switch to edit mode so you can make changes?") with hr2def
  have ha2 : jget r2 "action" = some (JVal.str "clarify") := by
    rw [hr2def]
    rw [jget_jset_ne _ _ _ _ (by decide), jget_jset_ne _ _ _ _ (by decide)]
    exact jget_jset_self _ _ _
  have hc2 : jget r2 "clarification" =
      some (JVal.str "You\x27re in preview mode. Should I switch to edit mode first?") := by
    rw [hr2def]
    rw [jget_jset_ne _ _ _ _ (by decide)]
    exact jget_jset_self _ _ _
  refine ⟨r2, ?_, ha2, hc2⟩
  unfold enhance_response
  rw [hr1]
  dsimp only
  rw [hr2]
  dsimp only
  rw [enhance_confirmation_skip r2 sc _ ha2 (by rfl)]
  dsimp only
  exact enhance_action_mapping_skip r2 _ ha2 (by rfl)

theorem validate_parsed_ok (kvs kvs' : JObj) (h : validate_parsed kvs = Except.ok kvs') :
    kvs' = kvs ∧ (∀ k ∈ required_fields, jhas kvs k = true) ∧
    ∃ a, jget kvs "action" = some (JVal.str a) ∧ a ∈ valid_actions := by
  unfold validate_parsed at h
  cases hf : required_fields.find? (fun f => !(jhas kvs f)) with
  | some f => rw [hf] at h; cases h
  | none =>
    rw [hf] at h
    dsimp only at h
    have hkeys : ∀ k ∈ required_fields, jhas kvs k = true := by
      intro k hk
      have := List.find?_eq_none.mp hf k hk
      simpa using this
    cases hja : jget kvs "action" with
    | none => rw [hja] at h; cases h
    | some v =>
      rw [hja] at h
      cases v with
      | str a =>
        dsimp only at h
        by_cases hc : valid_actions.contains a = true
        · rw [if_pos hc] at h
          cases h
          refine ⟨rfl, hkeys, a, rfl, ?_⟩
          simpa using hc
        · rw [if_neg hc] at h; cases h
      | null => dsimp only at h; cases h
      | num q => dsimp only at h; cases h
      | bool b => dsimp only at h; cases h
      | arr xs => dsimp only at h; cases h
      | obj o => dsimp only at h; cases h

theorem validate_parsed_accepts (kvs : JObj)
    (hkeys : ∀ k ∈ required_fields, jhas kvs k = true) (a : String)
    (ha : jget kvs "action" = some (JVal.str a)) (hav : a ∈ valid_actions) :
    validate_parsed kvs = Except.ok kvs := by
  unfold validate_parsed
  have hf : required_fields.find? (fun f => !(jhas kvs f)) = none := by
    apply List.find?_eq_none.mpr
    intro x hx
    simp [hkeys x hx]
  rw [hf, ha]
  dsimp only
  rw [if_pos (by simpa using hav)]

theorem parse_gpt_response_ok_shape (jloads : String → Option JVal) (reply : String)
    (kvs : JObj) (h : parse_gpt_response jloads reply = Except.ok kvs) :
    (∀ k ∈ required_fields, jhas kvs k = true) ∧
    ∃ a, jget kvs "action" = some (JVal.str a) ∧ a ∈ valid_actions := by
  unfold parse_gpt_response at h
  cases he : extract_json reply with
  | none => rw [he] at h; cases h
  | some js =>
    rw [he] at h
    dsimp only at h
    cases hl : jloads js with
    | none => rw [hl] at h; cases h
    | some v =>
      rw [hl] at h
      cases v with
      | obj kvs0 =>
        dsimp only at h
        cases hv : validate_parsed kvs0 with
        | error e => rw [hv] at h; cases h
        | ok p =>
          rw [hv] at h
          injection h with hpe
          subst hpe
          obtain ⟨hpk, hkeys, hact⟩ := validate_parsed_ok kvs0 _ hv
          rw [hpk]
          exact ⟨hkeys, hact⟩
      | null => dsimp only at h; cases h
      | str s => dsimp only at h; cases h
      | num q => dsimp only at h; cases h
      | bool b => dsimp only at h; cases h
      | arr xs => dsimp only at h; cases h

theorem voice_pipeline_ok_cases (jloads : String → Option JVal)
    (infer : String → Except String String) (now t : String) (sc : ScreenContext)
    (enh : JObj) (h : voice_pipeline jloads infer now t sc = Except.ok enh) :
    ∃ raw parsed, infer (build_command_prompt t sc) = Except.ok raw ∧
      parse_gpt_response jloads (pyStrip raw) = Except.ok parsed ∧
      enhance_response now parsed sc = Except.ok enh := by
  unfold voice_pipeline at h
  cases hi : infer (build_command_prompt t sc) with
  | error e => rw [hi] at h; cases h
  | ok raw =>
    rw [hi] at h
    dsimp only at h
    cases hp : parse_gpt_response jloads (pyStrip raw) with
    | error e => rw [hp] at h; cases h
    | ok parsed =>
      rw [hp] at h
      dsimp only at h
      exact ⟨raw, parsed, rfl, hp, h⟩

/-! ### JSON slice extraction lemmas -/

theorem charIdx?_cons_self (c : Char) (l : List Char) :
    charIdx? c (c :: l) = some 0 := by
  simp [charIdx?]

theorem charIdx?_append_of_not_mem (c : Char) (l m : List Char) (h : c ∉ l) :
    charIdx? c (l ++ m) = (charIdx? c m).map (fun i => i + l.length) := by
  induction l with
  | nil => cases hcm : charIdx? c m <;> simp [hcm]
  | cons x xs ih =>
    have hx : x ≠ c := fun hc => h (hc ▸ List.mem_cons_self x xs)
    have hxs : c ∉ xs := fun hc => h (List.mem_cons_of_mem x hc)
    simp only [List.cons_append, charIdx?, hx, if_false, List.append_eq]
    rw [ih hxs]
    cases hcm : charIdx? c m <;> simp [hcm]
    omega

theorem string_toList_append (a b : String) :
    (a ++ b).toList = a.toList ++ b.toList := by
  simp [String.toList, String.data_append]

theorem extract_json_embedded (p s q : String)
    (hs1 : s.toList.head? = some lbrace)
    (hs2 : s.toList.reverse.head? = some rbrace)
    (hp : lbrace ∉ p.toList)
    (hq : rbrace ∉ q.toList) :
    extract_json (p ++ s ++ q) = some s := by
  obtain ⟨t, ht⟩ : ∃ t, s.toList = lbrace :: t := by
    cases hc : s.toList with
    | nil => rw [hc] at hs1; cases hs1
    | cons c rest =>
      rw [hc] at hs1
      simp only [List.head?] at hs1
      exact ⟨rest, by rw [Option.some.inj hs1]⟩
  obtain ⟨w, hw⟩ : ∃ w, s.toList.reverse = rbrace :: w := by
    cases hc : s.toList.reverse with
    | nil => rw [hc] at hs2; cases hs2
    | cons c rest =>
      rw [hc] at hs2
      simp only [List.head?] at hs2
      exact ⟨rest, by rw [Option.some.inj hs2]⟩
  have hslen : 1 ≤ s.toList.length := by rw [ht]; simp
  have hfull : (p ++ s ++ q).toList = p.toList ++ s.toList ++ q.toList := by
    rw [string_toList_append, string_toList_append]
  have hidx1 : charIdx? lbrace (p.toList ++ s.toList ++ q.toList) =
      some p.toList.length := by
    rw [List.append_assoc, charIdx?_append_of_not_mem _ _ _ hp, ht,
      List.cons_append, charIdx?_cons_self]
    simp
  have hidx2 : charLastIdx? rbrace (p.toList ++ s.toList ++ q.toList) =
      some (p.toList.length + s.toList.length - 1) := by
    unfold charLastIdx?
    have hrev : (p.toList ++ s.toList ++ q.toList).reverse =
        q.toList.reverse ++ (rbrace :: (w ++ p.toList.reverse)) := by
      rw [List.reverse_append, List.reverse_append, hw]
      rfl
    rw [hrev, charIdx?_append_of_not_mem _ _ _ (by
      intro hc; exact hq (List.mem_reverse.mp hc)), charIdx?_cons_self]
    simp only [Option.map_some', Nat.zero_add, Option.some.injEq]
    have hq1 : q.toList.reverse.length = q.toList.length := List.length_reverse _
    rw [hq1]
    simp only [List.length_append]
    omega
  simp only [extract_json]
  rw [hfull, hidx1, hidx2]
  dsimp only
  have harith : p.toList.length + s.toList.length - 1 + 1 - p.toList.length =
      s.toList.length := by omega
  rw [harith, List.append_assoc, List.drop_left, List.take_left]
  rfl

/-! ### Summary key-backfill lemmas -/

theorem ensure1_jhas (acc : JObj) (f k : String) (h : jhas acc k = true) :
    jhas (if jhas acc f then acc else acc ++ [(f, JVal.null)]) k = true := by
  cases hf : jhas acc f
  · simp only [Bool.false_eq_true, if_false]
    rw [jhas_append]
    simp [h]
  · simp only [if_true]
    exact h

theorem foldl_ensure_jhas_mono (ks : List String) (kvs : JObj) (k : String)
    (h : jhas kvs k = true) :
    jhas (ks.foldl (fun acc f => if jhas acc f then acc else acc ++ [(f, JVal.null)]) kvs)
      k = true := by
  induction ks generalizing kvs with
  | nil => exact h
  | cons f rest ih =>
    simp only [List.foldl_cons]
    exact ih _ (ensure1_jhas kvs f k h)

theorem foldl_ensure_jget_of_jhas (ks : List String) (kvs : JObj) (k : String)
    (h : jhas kvs k = true) :
    jget (ks.foldl (fun acc f => if jhas acc f then acc else acc ++ [(f, JVal.null)]) kvs)
      k = jget kvs k := by
  induction ks generalizing kvs with
  | nil => rfl
  | cons f rest ih =>
    simp only [List.foldl_cons]
    cases hf : jhas kvs f
    · simp only [Bool.false_eq_true, if_false]
      rw [ih _ (by rw [jhas_append]; simp [h])]
      exact jget_append_of_jhas kvs _ k h
    · simp only [if_true]
      exact ih kvs h

theorem foldl_ensure_jhas_of_mem (ks : List String) (kvs : JObj) (k : String)
    (hk : k ∈ ks) :
    jhas (ks.foldl (fun acc f => if jhas acc f then acc else acc ++ [(f, JVal.null)]) kvs)
      k = true := by
  induction ks generalizing kvs with
  | nil => cases hk
  | cons f rest ih =>
    simp only [List.foldl_cons]
    rcases List.mem_cons.mp hk with he | hm
    · subst he
      cases hf : jhas kvs k
      · simp only [Bool.false_eq_true, if_false]
        apply foldl_ensure_jhas_mono
        rw [jhas_append]
        simp [jhas_cons]
      · simp only [if_true]
        exact foldl_ensure_jhas_mono rest kvs k hf
    · exact ih _ hm

theorem foldl_ensure_jget_missing (ks : List String) (kvs : JObj) (k : String)
    (h : jhas kvs k = false) (hk : k ∈ ks) :
    jget (ks.foldl (fun acc f => if jhas acc f then acc else acc ++ [(f, JVal.null)]) kvs)
      k = some JVal.null := by
  induction ks generalizing kvs with
  | nil => cases hk
  | cons f rest ih =>
    simp only [List.foldl_cons]
    by_cases hfk : f = k
    · subst hfk
      simp only [h, Bool.false_eq_true, if_false]
      have hnew : jhas (kvs ++ [(f, JVal.null)]) f = true := by
        rw [jhas_append]; simp [jhas_cons]
      rw [foldl_ensure_jget_of_jhas rest _ f hnew,
        jget_append_of_not_jhas kvs _ f h]
      simp [jget_cons]
    · have hm : k ∈ rest := by
        rcases List.mem_cons.mp hk with he | hm
        · exact absurd he.symm hfk
        · exact hm
      cases hf : jhas kvs f
      · simp only [Bool.false_eq_true, if_false]
        apply ih _ _ hm
        rw [jhas_append, h]
        simp [jhas_cons, jhas, hfk]
      · simp only [if_true]
        exact ih kvs h hm

/-! ### Claim theorems -/

/-! ### Generic helper facts and concrete test data

The `jloads_*` functions are finite models of Python `json.loads`: they
agree with it on every string they are applied to in the theorems below
(the single well-formed JSON document each one recognises, and `none`,
i.e. `JSONDecodeError`, elsewhere). -/

theorem some_str_ne (s t : String) (h : s ≠ t) :
    (some (JVal.str s) : Option JVal) ≠ some (JVal.str t) := by
  intro hc
  have h1 := Option.some.inj hc
  have h2 : s = t := by injection h1
  exact h h2

/-- Resolving with a constant provider reply that parses to a decision
whose action is `toggle_mode` returns that decision unchanged: none of
the four enhancement blocks applies to it. -/
theorem process_const_reply_unchanged (jloads : String → Option JVal)
    (reply : String) (r : JObj) (sc : ScreenContext) (now t a : String)
    (hp : parse_gpt_response jloads (pyStrip reply) = Except.ok r)
    (ha : jget r "action" = some (JVal.str a))
    (h1 : a ≠ "update_field") (h2 : a ≠ "execute_action") :
    process_voice_command jloads (fun _ => Except.ok reply) now t (some sc) = r := by
  have hpipe : voice_pipeline jloads (fun _ => Except.ok reply) now t sc =
      Except.ok r := by
    unfold voice_pipeline
    dsimp only
    rw [hp]
    dsimp only
    exact enhance_response_skip_all now r sc a ha h1 h2
  unfold process_voice_command
  dsimp only
  rw [hpipe]

def reply_toggle : String :=
  "\x7b\"action\": \"toggle_mode\", \"target\": \"mode\", \"confidence\": 0.5, \"confirmation\": \"Toggled\", \"ttsText\": \"Switched modes\"\x7d"

def obj_toggle : JObj :=
  [("action", JVal.str "toggle_mode"), ("target", JVal.str "mode"),
   ("confidence", JVal.num (1/2)), ("confirmation", JVal.str "Toggled"),
   ("ttsText", JVal.str "Switched modes")]

def jloads_toggle : String → Option JVal :=
  fun s => if s = reply_toggle then some (JVal.obj obj_toggle) else none

def field_location : ScreenField :=
  { name := "location", label := "Location", currentValue := "",
    isEditable := true, synonyms := ["place", "where"] }

def ctx_edit : ScreenContext :=
  { screenName := some "closeout", mode := some "edit",
    visibleFields := [field_location],
    currentValues := [], availableActions := ["generate_pdf"] }

def ctx_preview : ScreenContext :=
  { ctx_edit with mode := some "preview" }

set_option maxRecDepth 8000

/-- Claim C1 is refuted by this concrete run: the provider proposes
`toggle_mode` with confidence 0.5 < 0.7, yet the resolver returns
`toggle_mode`, not `clarify` — `_enhance_response` contains no
confidence check at all. -/
theorem C1_counterexample :
    jget obj_toggle "confidence" = some (JVal.num (1/2)) ∧
    ((1 : ℚ)/2 < 7/10) ∧
    parse_gpt_response jloads_toggle (pyStrip reply_toggle) = Except.ok obj_toggle ∧
    jget (process_voice_command jloads_toggle (fun _ => Except.ok reply_toggle)
      "2024-01-01 00:00" "switch the mode" (some ctx_edit)) "action" =
      some (JVal.str "toggle_mode") ∧
    jget (process_voice_command jloads_toggle (fun _ => Except.ok reply_toggle)
      "2024-01-01 00:00" "switch the mode" (some ctx_edit)) "action" ≠
      some (JVal.str "clarify") := by
  have hact : jget (process_voice_command jloads_toggle
      (fun _ => Except.ok reply_toggle) "2024-01-01 00:00" "switch the mode"
      (some ctx_edit)) "action" = some (JVal.str "toggle_mode") := rfl
  refine ⟨rfl, by norm_num, rfl, hact, ?_⟩
  rw [hact]
  exact some_str_ne _ _ (by decide)

/-- Claim C1 (amended): the resolver applies no confidence gate — a
parsed decision with confidence strictly below 0.7 whose action is
`toggle_mode` is returned unchanged, with its original action; the
0.7 rule exists only as an instruction inside the prompt text sent to
the provider. -/
theorem C1_no_confidence_gate (jloads : String → Option JVal) (reply : String)
    (r : JObj) (sc : ScreenContext) (now t : String) (q : ℚ)
    (hp : parse_gpt_response jloads (pyStrip reply) = Except.ok r)
    (ha : jget r "action" = some (JVal.str "toggle_mode"))
    (hc : jget r "confidence" = some (JVal.num q))
    (hq : q < 7/10) :
    process_voice_command jloads (fun _ => Except.ok reply) now t (some sc) = r ∧
    jget (process_voice_command jloads (fun _ => Except.ok reply) now t (some sc))
      "action" = some (JVal.str "toggle_mode") := by
  have hmain := process_const_reply_unchanged jloads reply r sc now t "toggle_mode"
    hp ha (by decide) (by decide)
  exact ⟨hmain, by rw [hmain]; exact ha⟩

theorem C1_witness :
    process_voice_command jloads_toggle (fun _ => Except.ok reply_toggle)
      "2024-01-01 00:00" "toggle the mode" (some ctx_edit) = obj_toggle :=
  (C1_no_confidence_gate jloads_toggle reply_toggle obj_toggle ctx_edit
    "2024-01-01 00:00" "toggle the mode" (1/2) rfl rfl rfl (by norm_num)).1

/-- Claim C2 is refuted by this concrete run: with an empty transcript
(shorter than 3 characters) the resolver still consults the inference
collaborator and returns the decision built from its reply
(`toggle_mode`), not an immediate `clarify`. -/
theorem C2_counterexample :
    ("" : String).length < 3 ∧
    jget (process_voice_command jloads_toggle (fun _ => Except.ok reply_toggle)
      "2024-01-01 00:00" "" (some ctx_edit)) "action" =
      some (JVal.str "toggle_mode") ∧
    jget (process_voice_command jloads_toggle (fun _ => Except.ok reply_toggle)
      "2024-01-01 00:00" "" (some ctx_edit)) "action" ≠
      some (JVal.str "clarify") := by
  have hact : jget (process_voice_command jloads_toggle
      (fun _ => Except.ok reply_toggle) "2024-01-01 00:00" ""
      (some ctx_edit)) "action" = some (JVal.str "toggle_mode") := rfl
  refine ⟨by decide, hact, ?_⟩
  rw [hact]
  exact some_str_ne _ _ (by decide)

/-- Claim C2 (amended): only the absent-ScreenContext case short-circuits
to `clarify`, through the generic exception path (the same fixed error
response for every collaborator behaviour, i.e. inference is never
consulted); the transcript is never length-gated: for an empty
transcript the resolver still consults the provider and returns the
decision its reply parses to (here `toggle_mode`). -/
theorem C2_no_transcript_gate :
    (∀ (jloads : String → Option JVal) (infer : String → Except String String)
      (now t : String),
      process_voice_command jloads infer now t none =
        create_error_response "\x27NoneType\x27 object has no attribute \x27get\x27" ∧
      jget (process_voice_command jloads infer now t none) "action" =
        some (JVal.str "clarify")) ∧
    (∀ (jloads : String → Option JVal) (reply : String) (r : JObj)
      (sc : ScreenContext) (now : String),
      parse_gpt_response jloads (pyStrip reply) = Except.ok r →
      jget r "action" = some (JVal.str "toggle_mode") →
      process_voice_command jloads (fun _ => Except.ok reply) now "" (some sc) = r) := by
  constructor
  · intro jloads infer now t
    exact ⟨rfl, rfl⟩
  · intro jloads reply r sc now hp ha
    exact process_const_reply_unchanged jloads reply r sc now "" "toggle_mode"
      hp ha (by decide) (by decide)

theorem C2_witness :
    process_voice_command jloads_toggle (fun _ => Except.ok reply_toggle)
      "2024-01-01 00:00" "" (some ctx_edit) = obj_toggle ∧
    process_voice_command jloads_toggle (fun _ => Except.ok reply_toggle)
      "2024-01-01 00:00" "hello" none =
      create_error_response "\x27NoneType\x27 object has no attribute \x27get\x27" :=
  ⟨C2_no_transcript_gate.2 jloads_toggle reply_toggle obj_toggle ctx_edit
    "2024-01-01 00:00" rfl rfl,
   (C2_no_transcript_gate.1 jloads_toggle (fun _ => Except.ok reply_toggle)
    "2024-01-01 00:00" "hello").1⟩

def reply_bogus : String :=
  "\x7b\"action\": \"update_field\", \"target\": \"bogus\", \"value\": \"Downtown Office\", \"confidence\": 0.95, \"confirmation\": \"Updated\", \"ttsText\": \"Done\"\x7d"

def obj_bogus : JObj :=
  [("action", JVal.str "update_field"), ("target", JVal.str "bogus"),
   ("value", JVal.str "Downtown Office"), ("confidence", JVal.num (95/100)),
   ("confirmation", JVal.str "Updated"), ("ttsText", JVal.str "Done")]

def jloads_bogus : String → Option JVal :=
  fun s => if s = reply_bogus then some (JVal.obj obj_bogus) else none

/-- Claim C3 is refuted by this concrete run: the target `bogus` matches
no FieldDescriptor of the context, yet the resolved action stays
`update_field` — the resolver never degrades an unmatched target to
`clarify` (and performs no case-insensitive or synonym matching). -/
theorem C3_counterexample :
    (∀ f ∈ ctx_edit.visibleFields, f.name ≠ "bogus") ∧
    parse_gpt_response jloads_bogus (pyStrip reply_bogus) = Except.ok obj_bogus ∧
    jget (process_voice_command jloads_bogus (fun _ => Except.ok reply_bogus)
      "2024-01-01 00:00" "update the bogus" (some ctx_edit)) "action" =
      some (JVal.str "update_field") ∧
    jget (process_voice_command jloads_bogus (fun _ => Except.ok reply_bogus)
      "2024-01-01 00:00" "update the bogus" (some ctx_edit)) "action" ≠
      some (JVal.str "clarify") := by
  have hact : jget (process_voice_command jloads_bogus
      (fun _ => Except.ok reply_bogus) "2024-01-01 00:00" "update the bogus"
      (some ctx_edit)) "action" = some (JVal.str "update_field") := rfl
  refine ⟨by decide, rfl, hact, ?_⟩
  rw [hact]
  exact some_str_ne _ _ (by decide)

/-- Claim C3 (amended): the resolver performs no exact/case-insensitive/
synonym matching step and never degrades an unresolved target: an
`update_field` decision (outside preview mode) whose truthy string
target matches no FieldDescriptor name exactly is returned with action
still `update_field`, the raw target being interpolated into the
confirmation in place of a field label. -/
theorem C3_no_field_resolution (now : String) (r : JObj) (sc : ScreenContext)
    (tgt : String) (v : JVal)
    (ha : jget r "action" = some (JVal.str "update_field"))
    (hm : sc.mode ≠ some "preview")
    (ht : jget r "target" = some (JVal.str tgt))
    (hnomatch : ∀ f ∈ sc.visibleFields, f.name ≠ tgt)
    (hv : jget r "value" = some v)
    (htv : jtruthy v = true) :
    enhance_response now r sc = Except.ok
      (jset (jset r "confirmation"
        (JVal.str ("Updated " ++ tgt ++ " to: " ++ pyStr v)))
        "ttsText" (JVal.str ("Updated! " ++ tgt ++ " is now " ++ pyStr v))) ∧
    jget (jset (jset r "confirmation"
        (JVal.str ("Updated " ++ tgt ++ " to: " ++ pyStr v)))
        "ttsText" (JVal.str ("Updated! " ++ tgt ++ " is now " ++ pyStr v)))
      "action" = some (JVal.str "update_field") ∧
    (∀ (jloads : String → Option JVal) (reply t : String),
      parse_gpt_response jloads (pyStrip reply) = Except.ok r →
      process_voice_command jloads (fun _ => Except.ok reply) now t (some sc) =
        jset (jset r "confirmation"
          (JVal.str ("Updated " ++ tgt ++ " to: " ++ pyStr v)))
          "ttsText" (JVal.str ("Updated! " ++ tgt ++ " is now " ++ pyStr v))) := by
  have hmb : (sc.mode == some "preview") = false := beq_eq_false_iff_ne.mpr hm
  have hstep1 : enhance_datetime now r = Except.ok r := by
    apply enhance_datetime_skip now r _ ha
    rw [ht, hv]
    simp [jtruthyOpt, htv]
  have hstep2 : enhance_preview_override r sc = Except.ok r := by
    apply enhance_preview_override_skip r sc _ ha
    rw [hmb]
    simp
  have hfind : sc.visibleFields.find? (fun f => isStr (JVal.str tgt) f.name) = none := by
    apply List.find?_eq_none.mpr
    intro f hf
    simp only [isStr, decide_eq_true_eq]
    intro hc
    exact hnomatch f hf hc.symm
  have hstep3 : enhance_confirmation r sc = Except.ok
      (jset (jset r "confirmation"
        (JVal.str ("Updated " ++ tgt ++ " to: " ++ pyStr v)))
        "ttsText" (JVal.str ("Updated! " ++ tgt ++ " is now " ++ pyStr v))) := by
    unfold enhance_confirmation
    rw [ha]
    dsimp only
    rw [if_pos (show isStr (JVal.str "update_field") "update_field" = true from rfl)]
    rw [ht, hv]
    simp only [Option.getD_some]
    rw [hfind]
    dsimp only
    simp only [jtruthyOpt]
    rw [if_pos htv]
    simp [pyStr]
  have hact : jget (jset (jset r "confirmation"
      (JVal.str ("Updated " ++ tgt ++ " to: " ++ pyStr v)))
      "ttsText" (JVal.str ("Updated! " ++ tgt ++ " is now " ++ pyStr v)))
      "action" = some (JVal.str "update_field") := by
    rw [jget_jset_ne _ _ _ _ (by decide), jget_jset_ne _ _ _ _ (by decide)]
    exact ha
  have hstep4 : enhance_action_mapping (jset (jset r "confirmation"
      (JVal.str ("Updated " ++ tgt ++ " to: " ++ pyStr v)))
      "ttsText" (JVal.str ("Updated! " ++ tgt ++ " is now " ++ pyStr v))) =
      Except.ok (jset (jset r "confirmation"
        (JVal.str ("Updated " ++ tgt ++ " to: " ++ pyStr v)))
        "ttsText" (JVal.str ("Updated! " ++ tgt ++ " is now " ++ pyStr v))) := by
    apply enhance_action_mapping_skip _ _ hact
    rfl
  have henh : enhance_response now r sc = Except.ok
      (jset (jset r "confirmation"
        (JVal.str ("Updated " ++ tgt ++ " to: " ++ pyStr v)))
        "ttsText" (JVal.str ("Updated! " ++ tgt ++ " is now " ++ pyStr v))) := by
    unfold enhance_response
    rw [hstep1]
    dsimp only
    rw [hstep2]
    dsimp only
    rw [hstep3]
    dsimp only
    exact hstep4
  refine ⟨henh, hact, ?_⟩
  intro jloads reply t hp
  have hpipe : voice_pipeline jloads (fun _ => Except.ok reply) now t sc =
      Except.ok (jset (jset r "confirmation"
        (JVal.str ("Updated " ++ tgt ++ " to: " ++ pyStr v)))
        "ttsText" (JVal.str ("Updated! " ++ tgt ++ " is now " ++ pyStr v))) := by
    unfold voice_pipeline
    dsimp only
    rw [hp]
    dsimp only
    exact henh
  unfold process_voice_command
  dsimp only
  rw [hpipe]

theorem C3_witness :
    process_voice_command jloads_bogus (fun _ => Except.ok reply_bogus)
      "2024-01-01 00:00" "update the bogus" (some ctx_edit) =
      jset (jset obj_bogus "confirmation"
        (JVal.str ("Updated " ++ "bogus" ++ " to: " ++ pyStr (JVal.str "Downtown Office"))))
        "ttsText" (JVal.str ("Updated! " ++ "bogus" ++ " is now " ++ pyStr (JVal.str "Downtown Office"))) :=
  (C3_no_field_resolution "2024-01-01 00:00" obj_bogus ctx_edit "bogus"
    (JVal.str "Downtown Office") rfl (by decide) rfl (by decide) rfl (by decide)).2.2
    jloads_bogus reply_bogus "update the bogus" rfl

/-- Claim C4 (confirmed): an `update_field` decision evaluated against a
`preview`-mode context is overridden to `clarify` with the fixed
switch-to-edit question, and the resolver never outputs `update_field`
while the mode is `preview` (on the failure path the error response is
`clarify` as well). -/
theorem C4_preview_mode_override :
    (∀ (now : String) (r : JObj) (sc : ScreenContext),
      jget r "action" = some (JVal.str "update_field") →
      sc.mode = some "preview" →
      ∃ r', enhance_response now r sc = Except.ok r' ∧
        jget r' "action" = some (JVal.str "clarify") ∧
        jget r' "clarification" = some
          (JVal.str "You\x27re in preview mode. Should I switch to edit mode first?")) ∧
    (∀ (jloads : String → Option JVal) (infer : String → Except String String)
      (now t : String) (sc : ScreenContext),
      sc.mode = some "preview" →
      jget (process_voice_command jloads infer now t (some sc)) "action" ≠
        some (JVal.str "update_field")) := by
  constructor
  · intro now r sc ha hm
    exact enhance_response_preview_fire now r sc ha hm
  · intro jloads infer now t sc hm
    unfold process_voice_command
    dsimp only
    cases hp : voice_pipeline jloads infer now t sc with
    | error e =>
      dsimp only
      have hceq : jget (create_error_response e) "action" =
          some (JVal.str "clarify") := rfl
      rw [hceq]
      exact some_str_ne _ _ (by decide)
    | ok enh =>
      dsimp only
      obtain ⟨raw, parsed, hi, hpar, henh⟩ :=
        voice_pipeline_ok_cases jloads infer now t sc enh hp
      exact enhance_response_preview_not_update now parsed sc enh henh hm

theorem C4_witness :
    jget (process_voice_command jloads_bogus (fun _ => Except.ok reply_bogus)
      "2024-01-01 00:00" "update the bogus" (some ctx_preview)) "action" ≠
      some (JVal.str "update_field") ∧
    (match enhance_response "2024-01-01 00:00" obj_bogus ctx_preview with
     | Except.ok r' => jget r' "action" = some (JVal.str "clarify")
     | Except.error _ => False) := by
  refine ⟨C4_preview_mode_override.2 jloads_bogus (fun _ => Except.ok reply_bogus)
    "2024-01-01 00:00" "update the bogus" ctx_preview rfl, ?_⟩
  obtain ⟨r', h1, h2, h3⟩ := C4_preview_mode_override.1 "2024-01-01 00:00"
    obj_bogus ctx_preview rfl rfl
  rw [h1]
  exact h2

/-- Claim C5 (confirmed): for every collaborator behaviour the resolver
returns a well-formed decision — its `action` is always one of the five
values of `valid_actions` and the four required keys are always present
— and every exception raised inside the pipeline is caught and turned
into `_create_error_response`, a `clarify` decision carrying the generic
apology. -/
theorem C5_no_exception_escapes :
    (∀ (jloads : String → Option JVal) (infer : String → Except String String)
      (now t : String) (osc : Option ScreenContext),
      (∃ a, jget (process_voice_command jloads infer now t osc) "action" =
        some (JVal.str a) ∧ a ∈ valid_actions) ∧
      (∀ k ∈ required_fields, jhas (process_voice_command jloads infer now t osc) k = true)) ∧
    (∀ (jloads : String → Option JVal) (infer : String → Except String String)
      (now t : String) (sc : ScreenContext) (e : String),
      voice_pipeline jloads infer now t sc = Except.error e →
      process_voice_command jloads infer now t (some sc) = create_error_response e ∧
      jget (create_error_response e) "action" = some (JVal.str "clarify") ∧
      jget (create_error_response e) "clarification" = some
        (JVal.str "I couldn\x27t understand that command. Could you try again?")) := by
  constructor
  · intro jloads infer now t osc
    cases osc with
    | none =>
      refine ⟨⟨"clarify", rfl, by decide⟩, ?_⟩
      intro k hk
      fin_cases hk <;> rfl
    | some sc =>
      unfold process_voice_command
      dsimp only
      cases hp : voice_pipeline jloads infer now t sc with
      | error e =>
        dsimp only
        refine ⟨⟨"clarify", rfl, by decide⟩, ?_⟩
        intro k hk
        fin_cases hk <;> rfl
      | ok enh =>
        dsimp only
        obtain ⟨raw, parsed, hi, hpar, henh⟩ :=
          voice_pipeline_ok_cases jloads infer now t sc enh hp
        obtain ⟨hkeys, a, ha, hav⟩ := parse_gpt_response_ok_shape jloads _ parsed hpar
        constructor
        · rcases enhance_response_ok_action now parsed sc enh a henh ha with h | h | h
          · exact ⟨a, h, hav⟩
          · exact ⟨"clarify", h, by decide⟩
          · exact ⟨"toggle_mode", h, by decide⟩
        · intro k hk
          exact enhance_response_ok_keys now parsed sc enh k henh (hkeys k hk)
  · intro jloads infer now t sc e hfail
    refine ⟨?_, rfl, rfl⟩
    unfold process_voice_command
    dsimp only
    rw [hfail]

theorem C5_witness :
    process_voice_command jloads_toggle (fun _ => Except.error "API timeout")
      "2024-01-01 00:00" "toggle the mode" (some ctx_edit) =
      create_error_response "API timeout" ∧
    jget (create_error_response "API timeout") "action" =
      some (JVal.str "clarify") := by
  have h := C5_no_exception_escapes.2 jloads_toggle
    (fun _ => Except.error "API timeout") "2024-01-01 00:00" "toggle the mode"
    ctx_edit "API timeout" rfl
  exact ⟨h.1, h.2.1⟩

def reply_high : String :=
  "\x7b\"action\": \"toggle_mode\", \"confidence\": \"high\", \"confirmation\": \"Toggled\", \"ttsText\": \"Switched modes\"\x7d"

def obj_high : JObj :=
  [("action", JVal.str "toggle_mode"), ("confidence", JVal.str "high"),
   ("confirmation", JVal.str "Toggled"), ("ttsText", JVal.str "Switched modes")]

def jloads_high : String → Option JVal :=
  fun s => if s = reply_high then some (JVal.obj obj_high) else none

/-- Claim C6 is refuted by this concrete run: the parser accepts the
reply with the non-numeric confidence `"high"` but performs no coercion
— the stored confidence stays the string `"high"`, never the default
0.5, and the resolver returns the proposed `toggle_mode`, not a forced
`clarify`. -/
theorem C6_counterexample :
    parse_gpt_response jloads_high (pyStrip reply_high) = Except.ok obj_high ∧
    jget obj_high "confidence" = some (JVal.str "high") ∧
    jget obj_high "confidence" ≠ some (JVal.num (1/2)) ∧
    jget (process_voice_command jloads_high (fun _ => Except.ok reply_high)
      "2024-01-01 00:00" "toggle the mode" (some ctx_edit)) "action" =
      some (JVal.str "toggle_mode") := by
  refine ⟨rfl, rfl, ?_, rfl⟩
  intro hcon
  have h1 : jget obj_high "confidence" = some (JVal.str "high") := rfl
  rw [h1] at hcon
  have h2 := Option.some.inj hcon
  cases h2

/-- Claim C6 (amended): a decision object with all required keys, a valid
action and a non-numeric (string) confidence is accepted by the parser
completely unchanged — there is no float coercion and no 0.5 default —
and for a `toggle_mode` action the resolver then returns the decision
as-is, with the string confidence still in place (no forced clarify). -/
theorem C6_no_confidence_repair (kvs : JObj) (conf : String)
    (hkeys : ∀ k ∈ required_fields, jhas kvs k = true)
    (ha : jget kvs "action" = some (JVal.str "toggle_mode"))
    (hc : jget kvs "confidence" = some (JVal.str conf)) :
    validate_parsed kvs = Except.ok kvs ∧
    (∀ (now : String) (sc : ScreenContext),
      enhance_response now kvs sc = Except.ok kvs) := by
  refine ⟨validate_parsed_accepts kvs hkeys "toggle_mode" ha (by decide), ?_⟩
  intro now sc
  exact enhance_response_skip_all now kvs sc "toggle_mode" ha (by decide) (by decide)

theorem C6_witness :
    validate_parsed obj_high = Except.ok obj_high ∧
    enhance_response "2024-01-01 00:00" obj_high ctx_edit = Except.ok obj_high := by
  have h := C6_no_confidence_repair obj_high "high" (by decide) rfl rfl
  exact ⟨h.1, h.2 "2024-01-01 00:00" ctx_edit⟩

def reply_ack : String :=
  "\x7b\"action\": \"acknowledge\", \"confidence\": 0.9, \"confirmation\": \"Okay\", \"ttsText\": \"Okay!\"\x7d"

def obj_ack : JObj :=
  [("action", JVal.str "acknowledge"), ("confidence", JVal.num (9/10)),
   ("confirmation", JVal.str "Okay"), ("ttsText", JVal.str "Okay!")]

def jloads_ack : String → Option JVal :=
  fun s => if s = reply_ack then some (JVal.obj obj_ack) else none

def obj_nav : JObj :=
  [("action", JVal.str "navigate"), ("confidence", JVal.num (9/10)),
   ("confirmation", JVal.str "Going back"), ("ttsText", JVal.str "Navigating")]

/-- Claim C7 is refuted by these concrete objects: the claimed action
enumeration is wrong on both sides.  A reply with all required keys and
action `acknowledge` (a member of the claimed enumeration) is rejected
with the `MalformedResponse` error, while `navigate` (absent from the
claimed enumeration) is accepted. -/
theorem C7_counterexample :
    (∀ k ∈ required_fields, jhas obj_ack k = true) ∧
    "acknowledge" ∈ ["update_field", "toggle_mode", "execute_action", "clarify",
      "acknowledge", "explain_capabilities", "provide_suggestion"] ∧
    parse_gpt_response jloads_ack reply_ack =
      Except.error "Invalid response format from AI" ∧
    ("navigate" ∉ ["update_field", "toggle_mode", "execute_action", "clarify",
      "acknowledge", "explain_capabilities", "provide_suggestion"]) ∧
    validate_parsed obj_nav = Except.ok obj_nav := by
  exact ⟨by decide, by decide, rfl, by decide, rfl⟩

/-- Claim C7 (amended): for a reply whose extracted slice decodes to an
object, the parser accepts exactly when all of `action`, `confidence`,
`confirmation`, `ttsText` are present and the `action` value is one of
`update_field | toggle_mode | navigate | execute_action | clarify`
(the code includes `navigate` and has no `acknowledge`,
`explain_capabilities` or `provide_suggestion`); otherwise it raises
the single `MalformedResponse` error message. -/
theorem C7_validation_characterization (jloads : String → Option JVal)
    (reply js : String) (kvs : JObj)
    (he : extract_json reply = some js)
    (hl : jloads js = some (JVal.obj kvs)) :
    (parse_gpt_response jloads reply = Except.ok kvs ↔
      ((∀ k ∈ required_fields, jhas kvs k = true) ∧
       ∃ a, jget kvs "action" = some (JVal.str a) ∧ a ∈ valid_actions)) ∧
    (¬((∀ k ∈ required_fields, jhas kvs k = true) ∧
       ∃ a, jget kvs "action" = some (JVal.str a) ∧ a ∈ valid_actions) →
      parse_gpt_response jloads reply =
        Except.error "Invalid response format from AI") := by
  have hparse : parse_gpt_response jloads reply =
      (match validate_parsed kvs with
       | Except.ok p => Except.ok p
       | Except.error _ => Except.error "Invalid response format from AI") := by
    unfold parse_gpt_response
    rw [he]
    dsimp only
    rw [hl]
  by_cases hP : ((∀ k ∈ required_fields, jhas kvs k = true) ∧
      ∃ a, jget kvs "action" = some (JVal.str a) ∧ a ∈ valid_actions)
  · obtain ⟨hkeys, a, ha, hav⟩ := hP
    have hacc := validate_parsed_accepts kvs hkeys a ha hav
    rw [hparse, hacc]
    constructor
    · constructor
      · intro _; exact ⟨hkeys, a, ha, hav⟩
      · intro _; rfl
    · intro hn
      exact absurd ⟨hkeys, a, ha, hav⟩ hn
  · have hrej : ∀ p, validate_parsed kvs ≠ Except.ok p := by
      intro p hcon
      obtain ⟨hpk, hkeys, hact⟩ := validate_parsed_ok kvs p hcon
      exact hP ⟨hkeys, hact⟩
    cases hv : validate_parsed kvs with
    | ok p => exact absurd hv (hrej p)
    | error e =>
      rw [hparse, hv]
      constructor
      · constructor
        · intro hcon; cases hcon
        · intro hcon; exact absurd hcon hP
      · intro _; rfl

theorem C7_witness :
    parse_gpt_response jloads_ack reply_ack =
      Except.error "Invalid response format from AI" := by
  apply (C7_validation_characterization jloads_ack reply_ack reply_ack obj_ack
    rfl rfl).2
  rintro ⟨-, a, haeq, hav⟩
  have hx : jget obj_ack "action" = some (JVal.str "acknowledge") := rfl
  rw [hx] at haeq
  have h1 : JVal.str "acknowledge" = JVal.str a := Option.some.inj haeq
  have h2 : "acknowledge" = a := by injection h1
  rw [← h2] at hav
  exact absurd hav (by decide)

/-- Claim C8 is refuted by this concrete run: the embedded decision
object is valid and the codec satisfies the stdlib round-trip contract
on it, but the prepended prose contains a left brace, so the
first-brace-to-last-brace slice is not the serialized object and the
parse fails instead of recovering the object. -/
theorem C8_counterexample :
    jloads_toggle reply_toggle = some (JVal.obj obj_toggle) ∧
    (∀ k ∈ required_fields, jhas obj_toggle k = true) ∧
    parse_gpt_response jloads_toggle ("Note \x7b " ++ reply_toggle) =
      Except.error "Invalid response format from AI" ∧
    parse_gpt_response jloads_toggle ("Note \x7b " ++ reply_toggle) ≠
      Except.ok obj_toggle := by
  have herr : parse_gpt_response jloads_toggle ("Note \x7b " ++ reply_toggle) =
      Except.error "Invalid response format from AI" := rfl
  refine ⟨rfl, by decide, herr, ?_⟩
  rw [herr]
  intro hcon
  cases hcon

/-- Claim C8 (amended): the round-trip holds provided the leading prose
contains no left brace and the trailing prose no right brace: for any
serialization of a valid decision object (first character a left brace,
last a right brace, decoded back to the object by the codec — the
stdlib `json` contract), slicing from the first left brace to the last
right brace recovers exactly the serialized object, and the parse
returns the embedded decision unchanged. -/
theorem C8_roundtrip_clean_prose (jloads : String → Option JVal)
    (enc p q : String) (kvs : JObj) (a : String)
    (hrt : jloads enc = some (JVal.obj kvs))
    (hs1 : enc.toList.head? = some lbrace)
    (hs2 : enc.toList.reverse.head? = some rbrace)
    (hp : lbrace ∉ p.toList)
    (hq : rbrace ∉ q.toList)
    (hkeys : ∀ k ∈ required_fields, jhas kvs k = true)
    (ha : jget kvs "action" = some (JVal.str a))
    (hav : a ∈ valid_actions) :
    extract_json (p ++ enc ++ q) = some enc ∧
    parse_gpt_response jloads (p ++ enc ++ q) = Except.ok kvs := by
  have he := extract_json_embedded p enc q hs1 hs2 hp hq
  refine ⟨he, ?_⟩
  unfold parse_gpt_response
  rw [he]
  dsimp only
  rw [hrt]
  dsimp only
  rw [validate_parsed_accepts kvs hkeys a ha hav]

theorem C8_witness :
    parse_gpt_response jloads_toggle ("Sure! " ++ reply_toggle ++ " Done.") =
      Except.ok obj_toggle :=
  (C8_roundtrip_clean_prose jloads_toggle reply_toggle "Sure! " " Done."
    obj_toggle "toggle_mode" rfl rfl rfl (by decide) (by decide) (by decide)
    rfl (by decide)).2

/-- Claim C9 (confirmed): for a transcription accepted by the length
guard, any failure of the provider call or of summary parsing is
absorbed: `generate_summary` returns the fallback record whose
`taskDescription` is the (truncated) transcript — a non-null, non-empty
string — and whose notes state that automatic extraction failed. -/
theorem C9_summary_fallback (jloads : String → Option JVal)
    (infer : String → String → Except String String) (nowIso t e : String)
    (h1 : t ≠ "")
    (h2 : 10 ≤ (pyStrip t).length)
    (hfail : summary_attempt jloads infer nowIso t = Except.error e) :
    generate_summary jloads infer nowIso t =
      Except.ok (create_fallback_summary nowIso t) ∧
    jget (create_fallback_summary nowIso t) "summary" = some (JVal.obj
      [("taskDescription", JVal.str
          (if t.length > 200 then t.take 200 ++ "..." else t)),
       ("location", JVal.null),
       ("datetime", JVal.null),
       ("outcome", JVal.str "Summary generation failed - manual review needed"),
       ("notes", JVal.str "AI was unable to parse this transcription into structured format")]) ∧
    (if t.length > 200 then t.take 200 ++ "..." else t) ≠ "" := by
  refine ⟨?_, rfl, ?_⟩
  · unfold generate_summary
    rw [if_neg (by simp [h1, Nat.not_lt.mpr h2])]
    rw [hfail]
  · by_cases hlen : t.length > 200
    · rw [if_pos hlen]
      intro hcon
      have hlcon := congrArg String.length hcon
      rw [String.length_append] at hlcon
      have h3 : ("..." : String).length = 3 := rfl
      rw [h3] at hlcon
      have h4 : ("" : String).length = 0 := rfl
      rw [h4] at hlcon
      omega
    · rw [if_neg hlen]
      exact h1

theorem C9_witness :
    generate_summary jloads_toggle (fun _ _ => Except.error "API timeout")
      "2024-01-01T00:00:00" "completed the site inspection today" =
      Except.ok (create_fallback_summary "2024-01-01T00:00:00"
        "completed the site inspection today") :=
  (C9_summary_fallback jloads_toggle (fun _ _ => Except.error "API timeout")
    "2024-01-01T00:00:00" "completed the site inspection today" "API timeout"
    (by decide) (by decide) rfl).1

/-- Claim C10 (confirmed): whenever the (fence-stripped) provider reply
decodes to an object, the summary parser succeeds and its output
contains all five schema keys; every key the provider omitted (other
than `taskDescription`) is set to null, and `taskDescription` is always
truthy — a missing or falsy provider value is replaced by the constant
`Work activity completed`. -/
theorem C10_summary_schema_invariants (jloads : String → Option JVal)
    (text : String) (kvs : JObj)
    (hl : jloads (strip_code_fences text) = some (JVal.obj kvs)) :
    (∃ out, parse_summary_response jloads text = Except.ok out) ∧
    (∀ out, parse_summary_response jloads text = Except.ok out →
      (∀ k ∈ summary_required_fields, jhas out k = true) ∧
      (∀ k ∈ summary_required_fields, k ≠ "taskDescription" →
        jhas kvs k = false → jget out k = some JVal.null) ∧
      (∃ v, jget out "taskDescription" = some v ∧ jtruthy v = true) ∧
      (jtruthyOpt (jget kvs "taskDescription") = false →
        jget out "taskDescription" = some (JVal.str "Work activity completed"))) := by
  have hrun : parse_summary_response jloads text =
      (if jtruthyOpt (jget (ensure_summary_fields kvs) "taskDescription") then
        Except.ok (ensure_summary_fields kvs)
      else Except.ok (jset (ensure_summary_fields kvs) "taskDescription"
        (JVal.str "Work activity completed"))) := by
    unfold parse_summary_response
    dsimp only
    rw [hl]
  have hE1 : ∀ k ∈ summary_required_fields, jhas (ensure_summary_fields kvs) k = true := by
    intro k hk
    exact foldl_ensure_jhas_of_mem summary_required_fields kvs k hk
  have hE2 : ∀ k ∈ summary_required_fields, jhas kvs k = false →
      jget (ensure_summary_fields kvs) k = some JVal.null := by
    intro k hk hmiss
    exact foldl_ensure_jget_missing summary_required_fields kvs k hmiss hk
  cases htd : jtruthyOpt (jget (ensure_summary_fields kvs) "taskDescription") with
  | false =>
    rw [htd] at hrun
    simp only [Bool.false_eq_true, if_false] at hrun
    refine ⟨⟨_, hrun⟩, ?_⟩
    intro out hout
    rw [hrun] at hout
    have hoeq : out = jset (ensure_summary_fields kvs) "taskDescription"
        (JVal.str "Work activity completed") := (Except.ok.inj hout).symm
    subst hoeq
    refine ⟨?_, ?_, ?_, ?_⟩
    · intro k hk
      exact jhas_jset_of _ _ _ _ (hE1 k hk)
    · intro k hk hne hmiss
      rw [jget_jset_ne _ _ _ _ hne]
      exact hE2 k hk hmiss
    · exact ⟨JVal.str "Work activity completed", jget_jset_self _ _ _, by decide⟩
    · intro _
      exact jget_jset_self _ _ _
  | true =>
    rw [htd] at hrun
    simp only [if_true] at hrun
    refine ⟨⟨_, hrun⟩, ?_⟩
    intro out hout
    rw [hrun] at hout
    have hoeq : out = ensure_summary_fields kvs := (Except.ok.inj hout).symm
    subst hoeq
    have htruthy : ∃ v, jget (ensure_summary_fields kvs) "taskDescription" = some v ∧
        jtruthy v = true := by
      cases hjE : jget (ensure_summary_fields kvs) "taskDescription" with
      | none => rw [hjE] at htd; cases htd
      | some v =>
        rw [hjE] at htd
        exact ⟨v, rfl, htd⟩
    refine ⟨hE1, ?_, htruthy, ?_⟩
    · intro k hk hne hmiss
      exact hE2 k hk hmiss
    · intro hkv
      exfalso
      cases hhk : jhas kvs "taskDescription" with
      | true =>
        have hsame : jget (ensure_summary_fields kvs) "taskDescription" =
            jget kvs "taskDescription" :=
          foldl_ensure_jget_of_jhas summary_required_fields kvs
            "taskDescription" hhk
        rw [hsame] at htd
        rw [htd] at hkv
        cases hkv
      | false =>
        have hnull : jget (ensure_summary_fields kvs) "taskDescription" =
            some JVal.null :=
          foldl_ensure_jget_missing summary_required_fields kvs
            "taskDescription" hhk (by decide)
        rw [hnull] at htd
        cases htd

def text_sum : String := "\x7b\"location\": \"Main site\"\x7d"

def jloads_sum : String → Option JVal :=
  fun s => if s = text_sum then some (JVal.obj [("location", JVal.str "Main site")])
  else none

theorem C10_witness :
    (match parse_summary_response jloads_sum text_sum with
     | Except.ok out =>
        jget out "taskDescription" = some (JVal.str "Work activity completed") ∧
        jget out "datetime" = some JVal.null ∧ jhas out "notes" = true
     | Except.error _ => False) := by
  obtain ⟨⟨out, hout⟩, hall⟩ := C10_summary_schema_invariants jloads_sum text_sum
    [("location", JVal.str "Main site")] rfl
  obtain ⟨hkeys, hmiss, htruthy, hrepl⟩ := hall out hout
  rw [hout]
  exact ⟨hrepl rfl, hmiss "datetime" (by decide) (by decide) rfl,
    hkeys "notes" (by decide)⟩
